import Mathlib

/-!
Verification of the peppi Slippi-replay streaming decoder (`src/parse.rs`,
`src/ubjson.rs`, `src/frame.rs`) against its natural-language specification.

The Rust code is shallowly embedded: the byte source (`R: Read`) becomes a
`List Nat` of bytes, fallible stateful reads become a state-and-error monad
`M`, machine integers become `Nat`/`Int` with explicit wrap-around where the
source can overflow, and `f32` values are carried as their raw 32-bit big-endian
bit patterns (the decoder never does float arithmetic; the only float operation,
sign comparison against `0.0` in `direction`, is expressed on the IEEE-754
pattern).  Rust's panicking slice index on the per-port `CharState` array is
embedded as guarded indexing (`List.getElem?`), with a dedicated `indexPanic`
error observing the out-of-bounds branch.

Error values: the Rust code produces `std::io::Error` values with message
strings; following the spec's error taxonomy (§7), each `err!`/error site is
mapped to the taxonomy constructor the spec assigns to it.
-/

namespace Peppi

/-- A byte stream: the contents of the `R: Read` source, one `Nat` per byte. -/
abbrev Bytes := List Nat

/-- Error taxonomy from the spec (§7), one constructor per error class.
`indexPanic` additionally models the Rust panic on an out-of-bounds
`last_char_states[port]` index (not an `io::Error` in the source: a crash). -/
inductive Err
| truncatedInput
| malformedEnvelope
| unknownEventSize
| byteAccountingMismatch
| invalidDiscriminant
| invalidText
| malformedMetadata
| unsupportedValueType
| indexPanic
deriving DecidableEq, Repr

/-- The reader monad: a computation that consumes bytes from the front of the
stream and either produces a value or fails, in both cases returning the
stream position reached (mirroring Rust's `&mut R` cursor). -/
def M (α : Type) : Type := Bytes → Except Err α × Bytes

instance : Monad M where
  pure a := fun s => (.ok a, s)
  bind x f := fun s =>
    match x s with
    | (.ok a, s') => f a s'
    | (.error e, s') => (.error e, s')

/-- `throwM e` fails without consuming further bytes. -/
def throwM (e : Err) : M α := fun s => (.error e, s)

/-- Lift a pure `Except` result (e.g. the outcome of decoding a sub-buffer)
into the reader monad without touching the outer stream. -/
def liftE (e : Except Err α) : M α := fun s => (e, s)

/-- Run a reader on a detached buffer (Rust: decoding from a `&[u8]` slice),
discarding the buffer's final position as the source does. -/
def runBuf (m : M α) (buf : Bytes) : Except Err α := (m buf).1

/-- `read_u8`: one byte, or `TruncatedInput` at end of stream. -/
def readU8 : M Nat := fun s =>
  match s with
  | [] => (.error .truncatedInput, [])
  | b :: t => (.ok b, t)

/-- `read_exact` into an `n`-byte buffer. -/
def readExact (n : Nat) : M Bytes := fun s =>
  if n ≤ s.length then (.ok (s.take n), s.drop n) else (.error .truncatedInput, s)

/-- `read_u16::<BigEndian>`. -/
def readU16 : M Nat := do
  let a ← readU8
  let b ← readU8
  pure (a * 2 ^ 8 + b)

/-- `read_u32::<BigEndian>`. -/
def readU32 : M Nat := do
  let a ← readU8
  let b ← readU8
  let c ← readU8
  let d ← readU8
  pure (a * 2 ^ 24 + b * 2 ^ 16 + c * 2 ^ 8 + d)

/-- `read_u64::<BigEndian>`. -/
def readU64 : M Nat := do
  let hi ← readU32
  let lo ← readU32
  pure (hi * 2 ^ 32 + lo)

/-- `read_i8`: two's-complement reinterpretation of one byte. -/
def readI8 : M Int := do
  let b ← readU8
  pure (if b < 2 ^ 7 then (b : Int) else (b : Int) - 2 ^ 8)

/-- `read_i32::<BigEndian>`: two's-complement reinterpretation of four bytes. -/
def readI32 : M Int := do
  let n ← readU32
  pure (if n < 2 ^ 31 then (n : Int) else (n : Int) - 2 ^ 32)

/-- `read_f32::<BigEndian>`: the raw 32-bit pattern (floats are never
computed with, only classified by sign, so the pattern is the value). -/
def readF32 : M Nat := readU32

/-- Rust `r.is_empty()` on the current slice position. -/
def isEmpty : M Bool := fun s => (.ok s.isEmpty, s)

/-- The number of unread bytes.  Used only to supply an adequate fuel bound
for loops whose Rust originals terminate because every iteration consumes at
least one byte of the finite stream. -/
def remaining : M Nat := fun s => (.ok s.length, s)

/-- `HashMap<u8, u16>` embedded as an association list; `insert` replaces the
value at an existing key and otherwise appends. -/
abbrev Table := List (Nat × Nat)

/-- `HashMap::insert`. -/
def insertKV (m : Table) (k v : Nat) : Table :=
  match m with
  | [] => [(k, v)]
  | (k', v') :: rest => if k' = k then (k, v) :: rest else (k', v') :: insertKV rest k v

/-- `HashMap::get`. -/
def lookupKV (m : Table) (k : Nat) : Option Nat :=
  match m with
  | [] => none
  | (k', v) :: rest => if k' = k then some v else lookupKV rest k

/-! ## Data model (parse.rs / frame.rs; identifier-only types from
sibling modules that are not under `src/` are modelled from the spec) -/

/-- `character::Internal(u8)`.  Modelled from the spec: the `character`
module is not under `src/`; only the newtype shape and the two named
constants are needed, and for the claims only their distinctness matters. -/
structure Internal where
  val : Nat
deriving DecidableEq, Repr

/-- Modelled from the spec: internal id of Sheik. -/
def Internal.SHEIK : Internal := ⟨7⟩

/-- Modelled from the spec: internal id of Zelda. -/
def Internal.ZELDA : Internal := ⟨19⟩

/-- Modelled from the spec: the `action_state` module is not under `src/`.
`State` interprets a numeric action-state code relative to a character:
codes in the common range decode as `Common`, others according to the
character's own state table (here only Zelda's and Sheik's tables matter;
all other characters' states are carried opaquely as `Other`). -/
inductive State
| Common (v : Nat)
| Zelda (v : Nat)
| Sheik (v : Nat)
| Other (c : Internal) (v : Nat)
deriving DecidableEq, Repr

/-- Modelled from the spec: `action_state::Common::WAIT`. -/
def Common.WAIT : Nat := 14

/-- Modelled from the spec: `action_state::Zelda::TRANSFORM_GROUND`
(exact numeric code immaterial to the claims, only distinctness). -/
def Zelda.TRANSFORM_GROUND : Nat := 355

/-- Modelled from the spec: `action_state::Zelda::TRANSFORM_AIR`. -/
def Zelda.TRANSFORM_AIR : Nat := 357

/-- Modelled from the spec: `action_state::Sheik::TRANSFORM_GROUND`. -/
def Sheik.TRANSFORM_GROUND : Nat := 360

/-- Modelled from the spec: `action_state::Sheik::TRANSFORM_AIR`. -/
def Sheik.TRANSFORM_AIR : Nat := 362

/-- Modelled from the spec: `action_state::State::from(n, character)` —
character-specific interpretation of a state code: codes below the common
bound are `Common`, others use the occupying character's table. -/
def State.ofWire (v : Nat) (c : Internal) : State :=
  if v < 341 then .Common v
  else if c = Internal.ZELDA then .Zelda v
  else if c = Internal.SHEIK then .Sheik v
  else .Other c v

/-- `game::NUM_PORTS`.  Modelled from the spec: the `game` module is not
under `src/`; the spec fixes the per-slot array at 4 entries. -/
def NUM_PORTS : Nat := 4

/-- `const ZELDA_TRANSFORM_FRAME: u32 = 43`. -/
def ZELDA_TRANSFORM_FRAME : Nat := 43

/-- `const SHEIK_TRANSFORM_FRAME: u32 = 36`. -/
def SHEIK_TRANSFORM_FRAME : Nat := 36

/-- `struct CharState` (parse.rs). -/
structure CharState where
  character : Internal
  state : State
  age : Nat
deriving DecidableEq, Repr

/-- `DEFAULT_CHAR_STATE`. -/
def DEFAULT_CHAR_STATE : CharState :=
  { character := ⟨255⟩, state := .Common Common.WAIT, age := 0 }

/-- `struct FrameId` (parse.rs). -/
structure FrameId where
  index : Int
  port : Nat
  is_follower : Bool
deriving DecidableEq, Repr

/-- `struct FrameEvent<F>` (parse.rs). -/
structure FrameEvent (F : Type) where
  id : FrameId
  event : F
deriving Repr, DecidableEq

/-- `enum Event` (parse.rs): the four known event codes. -/
inductive Event
| GameStart
| FramePre
| FramePost
| GameEnd
deriving DecidableEq, Repr

/-- `Event::try_from(code).ok()` (num_enum `TryFromPrimitive`). -/
def Event.ofCode (c : Nat) : Option Event :=
  if c = 0x36 then some .GameStart
  else if c = 0x37 then some .FramePre
  else if c = 0x38 then some .FramePost
  else if c = 0x39 then some .GameEnd
  else none

/-- `PAYLOADS_EVENT_CODE` (0x35). -/
def PAYLOADS_EVENT_CODE : Nat := 0x35

/-! ## Character prediction state machine (parse.rs lines 304-461) -/

/-- `fn direction(value: f32)`: classify the sign of an IEEE-754 single given
its raw bit pattern.  `v < 0.0` holds iff the sign bit is set and the value is
neither a zero nor a NaN; `v > 0.0` symmetrically.  NaN compares false both
ways, hence falls through to the error arm, matching Rust's float semantics. -/
def f32IsNeg (bits : Nat) : Prop :=
  bits / 2 ^ 31 % 2 = 1 ∧
  ¬(bits / 2 ^ 23 % 2 ^ 8 = 0 ∧ bits % 2 ^ 23 = 0) ∧
  ¬(bits / 2 ^ 23 % 2 ^ 8 = 255 ∧ bits % 2 ^ 23 ≠ 0)

/-- `v > 0.0` on the raw pattern: sign clear, not a zero, not a NaN. -/
def f32IsPos (bits : Nat) : Prop :=
  bits / 2 ^ 31 % 2 = 0 ∧
  ¬(bits / 2 ^ 23 % 2 ^ 8 = 0 ∧ bits % 2 ^ 23 = 0) ∧
  ¬(bits / 2 ^ 23 % 2 ^ 8 = 255 ∧ bits % 2 ^ 23 ≠ 0)

instance (bits : Nat) : Decidable (f32IsNeg bits) := by
  unfold f32IsNeg; infer_instance

instance (bits : Nat) : Decidable (f32IsPos bits) := by
  unfold f32IsPos; infer_instance

/-- `enum Direction` (frame.rs). -/
inductive Direction
| LEFT
| RIGHT
deriving DecidableEq, Repr

/-- `fn direction(value: f32) -> Result<Direction>` (parse.rs 304-310). -/
def direction (bits : Nat) : Except Err Direction :=
  if f32IsNeg bits then .ok .LEFT
  else if f32IsPos bits then .ok .RIGHT
  else .error .invalidDiscriminant

/-- `fn predict_character` (parse.rs 312-323), with the panicking array index
embedded as guarded indexing: `none` is the out-of-bounds (panic) branch. -/
def predict_character (id : FrameId) (last_char_states : List CharState) : Option Internal :=
  match last_char_states[id.port]? with
  | none => none
  | some prev =>
    some (
      if (prev.state = State.Zelda Zelda.TRANSFORM_GROUND ∨
          prev.state = State.Zelda Zelda.TRANSFORM_AIR) ∧
          ZELDA_TRANSFORM_FRAME ≤ prev.age then Internal.SHEIK
      else if (prev.state = State.Sheik Sheik.TRANSFORM_GROUND ∨
          prev.state = State.Sheik Sheik.TRANSFORM_AIR) ∧
          SHEIK_TRANSFORM_FRAME ≤ prev.age then Internal.ZELDA
      else prev.character)

/-- The `age:` match expression inside `update_last_char_state`
(parse.rs 424-459), arm for arm. -/
def newAge (prev : CharState) (state : State) : Nat :=
  if state = prev.state then prev.age + 1
  else if state = State.Zelda Zelda.TRANSFORM_GROUND then
    if prev.state = State.Zelda Zelda.TRANSFORM_AIR then
      min (ZELDA_TRANSFORM_FRAME - 1) (prev.age + 1)
    else 0
  else if state = State.Zelda Zelda.TRANSFORM_AIR then
    if prev.state = State.Zelda Zelda.TRANSFORM_GROUND then
      min (ZELDA_TRANSFORM_FRAME - 1) (prev.age + 1)
    else 0
  else if state = State.Sheik Sheik.TRANSFORM_GROUND then
    if prev.state = State.Sheik Sheik.TRANSFORM_AIR then
      min (SHEIK_TRANSFORM_FRAME - 1) (prev.age + 1)
    else 0
  else if state = State.Sheik Sheik.TRANSFORM_AIR then
    if prev.state = State.Sheik Sheik.TRANSFORM_GROUND then
      min (SHEIK_TRANSFORM_FRAME - 1) (prev.age + 1)
    else 0
  else 0

/-- `fn update_last_char_state` (parse.rs 418-461); the panicking index is
guarded, `none` being the out-of-bounds (panic) branch. -/
def update_last_char_state (id : FrameId) (character : Internal) (state : State)
    (last_char_states : List CharState) : Option (List CharState) :=
  match last_char_states[id.port]? with
  | none => none
  | some prev =>
    some (last_char_states.set id.port
      { character := character, state := state, age := newAge prev state })

/-! ## Versioned record decoders: game start (parse.rs 88-285) -/

/-- `game::Ucf` as constructed by `player_v1_0`: a `0` wire value means
absent, any other `u32` value is the present variant. -/
structure Ucf where
  dash_back : Option Nat
  shield_drop : Option Nat
deriving DecidableEq, Repr

/-- `game::PlayerV1_3` as constructed by `player_v1_3`.  The SHIFT_JIS text
decode of the name-tag bytes (an external library call that cannot fail:
invalid sequences are replaced, never rejected) is modelled as carrying the
raw bytes up to the first zero byte. -/
structure PlayerV1_3 where
  name_tag : Bytes
deriving DecidableEq, Repr

/-- `game::PlayerV1_0` as constructed by `player_v1_0` (runtime-optional
`v1_3` chain per the spec's §9 re-architecture of the `cfg` duality). -/
structure PlayerV1_0 where
  ucf : Ucf
  v1_3 : Option PlayerV1_3
deriving DecidableEq, Repr

/-- `game::Team` as constructed by `player`. -/
structure Team where
  color : Nat
  shade : Nat
deriving DecidableEq, Repr

/-- `game::Player` with exactly the fields `player` (parse.rs 117-176)
fills in; float-valued fields carry raw bit patterns. -/
structure Player where
  character : Nat
  ptype : Nat
  stocks : Nat
  costume : Nat
  team : Option Team
  handicap : Nat
  bitfield : Nat
  cpu_level : Option Nat
  offense_ratio : Nat
  defense_ratio : Nat
  model_scale : Nat
  v1_0 : Option PlayerV1_0
deriving DecidableEq, Repr

/-- Modelled from the spec: `game::PlayerType` discriminants — the `game`
module is not under `src/`; `HUMAN`/`CPU`/`DEMO` produce a record, all other
type codes produce no record.  Wire values 0/1/2 respectively. -/
def PlayerType.HUMAN : Nat := 0

/-- Modelled from the spec: CPU player-type discriminant. -/
def PlayerType.CPU : Nat := 1

/-- Modelled from the spec: DEMO player-type discriminant. -/
def PlayerType.DEMO : Nat := 2

/-- `fn player_v1_3(r: [u8; 16])` (parse.rs 88-94): keep the bytes before
the first zero byte (the SHIFT_JIS charset decode is modelled as identity
on those bytes; it has no failure path). -/
def player_v1_3 (r : Bytes) : Except Err PlayerV1_3 :=
  .ok { name_tag := r.takeWhile (fun x => x ≠ 0) }

/-- `fn player_v1_0(r: [u8; 8], v1_3)` (parse.rs 96-115). -/
def player_v1_0 (r : Bytes) (v1_3 : Option Bytes) : Except Err PlayerV1_0 :=
  runBuf (do
    let db ← readU32
    let sd ← readU32
    let v13 ← match v1_3 with
      | some b => do
        let p ← liftE (player_v1_3 b)
        pure (some p)
      | none => pure none
    pure { ucf := { dash_back := if db = 0 then none else some db,
                    shield_drop := if sd = 0 then none else some sd },
           v1_3 := v13 }) r

/-- `fn player(v0: &[u8; 36], is_teams, v1_0, v1_3)` (parse.rs 117-176). -/
def player (v0 : Bytes) (is_teams : Bool) (v1_0 : Option Bytes) (v1_3 : Option Bytes) :
    Except Err (Option Player) :=
  runBuf (do
    let character ← readU8
    let ptype ← readU8
    let stocks ← readU8
    let costume ← readU8
    let _ ← readExact 3
    let team_shade ← readU8
    let handicap ← readU8
    let team_color ← readU8
    let team := if is_teams then some { color := team_color, shade := team_shade } else none
    let _ ← readU16
    let bitfield ← readU8
    let _ ← readU16
    let cpu_level_raw ← readU8
    let cpu_level := if ptype = PlayerType.CPU then some cpu_level_raw else none
    let _ ← readU32
    let oRatio ← readF32
    let dRatio ← readF32
    let model_scale ← readF32
    let _ ← readU32
    let v10 ← match v1_0 with
      | some b => do
        let p ← liftE (player_v1_0 b v1_3)
        pure (some p)
      | none => pure none
    if ptype = PlayerType.HUMAN ∨ ptype = PlayerType.CPU ∨ ptype = PlayerType.DEMO then
      pure (some { character := character, ptype := ptype, stocks := stocks,
                   costume := costume, team := team, handicap := handicap,
                   bitfield := bitfield, cpu_level := cpu_level,
                   offense_ratio := oRatio, defense_ratio := dRatio,
                   model_scale := model_scale, v1_0 := v10 })
    else
      pure none) v0

/-- `game::StartV2_0` (from `game_start_v2_0`, parse.rs 190-194). -/
structure StartV2_0 where
  is_frozen_ps : Bool
deriving DecidableEq, Repr

/-- `game::StartV1_5` (from `game_start_v1_5`, parse.rs 196-205). -/
structure StartV1_5 where
  is_pal : Bool
  v2_0 : Option StartV2_0
deriving DecidableEq, Repr

/-- `game::Start` with exactly the fields `game_start` fills in. -/
structure Start where
  slippi : Nat × Nat × Nat
  bitfield : Bytes
  is_teams : Bool
  item_spawn_frequency : Int
  self_destruct_score : Int
  stage : Nat
  timer : Nat
  item_spawn_bitfield : Bytes
  damage_ratio : Nat
  players : List (Option Player)
  random_seed : Nat
  v1_5 : Option StartV1_5
deriving DecidableEq, Repr

/-- `fn game_start_v2_0` (parse.rs 190-194). -/
def game_start_v2_0 : M StartV2_0 := do
  let b ← readU8
  pure { is_frozen_ps := b ≠ 0 }

/-- `fn game_start_v1_5` (parse.rs 196-205). -/
def game_start_v1_5 : M StartV1_5 := do
  let b ← readU8
  let e ← isEmpty
  let v2_0 ← if e then pure none else do
    let v ← game_start_v2_0
    pure (some v)
  pure { is_pal := b ≠ 0, v2_0 := v2_0 }

/-- `fn game_start` (parse.rs 207-285), field for field and skip for skip. -/
def game_start : M Start := do
  let s0 ← readU8
  let s1 ← readU8
  let s2 ← readU8
  let _ ← readU8
  let b0 ← readU8
  let b1 ← readU8
  let _ ← readU8
  let b2 ← readU8
  let _ ← readU32
  let teamsRaw ← readU8
  let is_teams := teamsRaw ≠ 0
  let _ ← readU16
  let item_spawn_frequency ← readI8
  let self_destruct_score ← readI8
  let _ ← readU8
  let stage ← readU16
  let timer ← readU32
  let _ ← readExact 15
  let item_spawn_bitfield ← readExact 5
  let _ ← readU64
  let dRatio ← readF32
  let _ ← readExact 44
  let p0 ← readExact 36
  let p1 ← readExact 36
  let p2 ← readExact 36
  let p3 ← readExact 36
  let _ ← readExact 72
  let random_seed ← readU32
  let e10 ← isEmpty
  let players_v1_0 ← if e10 then pure ([none, none, none, none] : List (Option Bytes))
    else do
      let a ← readExact 8
      let b ← readExact 8
      let c ← readExact 8
      let d ← readExact 8
      pure [some a, some b, some c, some d]
  let e13 ← isEmpty
  let players_v1_3 ← if e13 then pure ([none, none, none, none] : List (Option Bytes))
    else do
      let a ← readExact 16
      let b ← readExact 16
      let c ← readExact 16
      let d ← readExact 16
      pure [some a, some b, some c, some d]
  let q0 ← liftE (player p0 is_teams (players_v1_0.getD 0 none) (players_v1_3.getD 0 none))
  let q1 ← liftE (player p1 is_teams (players_v1_0.getD 1 none) (players_v1_3.getD 1 none))
  let q2 ← liftE (player p2 is_teams (players_v1_0.getD 2 none) (players_v1_3.getD 2 none))
  let q3 ← liftE (player p3 is_teams (players_v1_0.getD 3 none) (players_v1_3.getD 3 none))
  let e15 ← isEmpty
  let v1_5 ← if e15 then pure none else do
    let v ← game_start_v1_5
    pure (some v)
  pure { slippi := (s0, s1, s2), bitfield := [b0, b1, b2], is_teams := is_teams,
         item_spawn_frequency := item_spawn_frequency,
         self_destruct_score := self_destruct_score, stage := stage, timer := timer,
         item_spawn_bitfield := item_spawn_bitfield, damage_ratio := dRatio,
         players := [q0, q1, q2, q3], random_seed := random_seed, v1_5 := v1_5 }

/-! ## Game end (parse.rs 287-302) -/

/-- `game::EndV2_0`. -/
structure EndV2_0 where
  lras_initiator : Int
deriving DecidableEq, Repr

/-- `game::End` with exactly the fields `game_end` fills in. -/
structure End where
  method : Nat
  v2_0 : Option EndV2_0
deriving DecidableEq, Repr

/-- `fn game_end_v2_0` (parse.rs 287-291). -/
def game_end_v2_0 : M EndV2_0 := do
  let i ← readI8
  pure { lras_initiator := i }

/-- `fn game_end` (parse.rs 293-302). -/
def game_end : M End := do
  let m ← readU8
  let e ← isEmpty
  let v2_0 ← if e then pure none else do
    let v ← game_end_v2_0
    pure (some v)
  pure { method := m, v2_0 := v2_0 }

/-! ## Frame pre/post decoders (parse.rs 325-556, frame.rs) -/

/-- `frame::Position` (f32 coordinates as raw bit patterns). -/
structure Position where
  x : Nat
  y : Nat
deriving DecidableEq, Repr

/-- `frame::Buttons`. -/
structure Buttons where
  logical : Nat
  physical : Nat
deriving DecidableEq, Repr

/-- `triggers::Physical`. -/
structure TriggersPhysical where
  l : Nat
  r : Nat
deriving DecidableEq, Repr

/-- `frame::Triggers`. -/
structure Triggers where
  logical : Nat
  physical : TriggersPhysical
deriving DecidableEq, Repr

/-- `frame::PreV1_4`. -/
structure PreV1_4 where
  damage : Nat
deriving DecidableEq, Repr

/-- `frame::PreV1_2`. -/
structure PreV1_2 where
  raw_analog_x : Nat
  v1_4 : Option PreV1_4
deriving DecidableEq, Repr

/-- `frame::Pre` with exactly the fields `frame_pre` fills in. -/
structure Pre where
  index : Int
  random_seed : Nat
  state : State
  position : Position
  direction : Direction
  joystick : Position
  cstick : Position
  triggers : Triggers
  buttons : Buttons
  v1_2 : Option PreV1_2
deriving DecidableEq, Repr

/-- `fn frame_pre_v1_4` (parse.rs 325-329). -/
def frame_pre_v1_4 : M PreV1_4 := do
  let d ← readF32
  pure { damage := d }

/-- `fn frame_pre_v1_2` (parse.rs 331-340). -/
def frame_pre_v1_2 : M PreV1_2 := do
  let rax ← readU8
  let e ← isEmpty
  let v1_4 ← if e then pure none else do
    let v ← frame_pre_v1_4
    pure (some v)
  pure { raw_analog_x := rax, v1_4 := v1_4 }

/-- `fn frame_pre` (parse.rs 342-406).  The character prediction happens
right after the id is read, before any further field; Rust's panicking index
inside `predict_character` is the `indexPanic` branch here. -/
def frame_pre (last_char_states : List CharState) : M (FrameEvent Pre) := do
  let index ← readI32
  let portB ← readU8
  let folB ← readU8
  let id : FrameId := { index := index, port := portB, is_follower := folB ≠ 0 }
  match predict_character id last_char_states with
  | none => throwM .indexPanic
  | some character => do
    let random_seed ← readU32
    let stateRaw ← readU16
    let state := State.ofWire stateRaw character
    let px ← readF32
    let py ← readF32
    let dirRaw ← readF32
    let dir ← liftE (direction dirRaw)
    let jx ← readF32
    let jy ← readF32
    let cx ← readF32
    let cy ← readF32
    let trigger_logical ← readF32
    let blog ← readU32
    let bphys ← readU16
    let tl ← readF32
    let tr ← readF32
    let e ← isEmpty
    let v1_2 ← if e then pure none else do
      let v ← frame_pre_v1_2
      pure (some v)
    pure { id := id,
           event := { index := index, random_seed := random_seed, state := state,
                      position := { x := px, y := py }, direction := dir,
                      joystick := { x := jx, y := jy }, cstick := { x := cx, y := cy },
                      triggers := { logical := trigger_logical,
                                    physical := { l := tl, r := tr } },
                      buttons := { logical := blog, physical := bphys },
                      v1_2 := v1_2 } }

/-- `fn flags(buf: &[u8; 5])` (parse.rs 408-416): pack five bytes into one
wide flag word at bit offsets 0, 8, 16, 24, 32. -/
def flags (b : Bytes) : Nat :=
  match b with
  | [b0, b1, b2, b3, b4] => b0 + b1 * 2 ^ 8 + b2 * 2 ^ 16 + b3 * 2 ^ 24 + b4 * 2 ^ 32
  | _ => 0

/-- `frame::PostV2_1`. -/
structure PostV2_1 where
  hurtbox_state : Nat
deriving DecidableEq, Repr

/-- `frame::PostV2_0`. -/
structure PostV2_0 where
  flags : Nat
  misc_as : Nat
  ground : Nat
  jumps : Nat
  l_cancel : Option Nat
  airborne : Bool
  v2_1 : Option PostV2_1
deriving DecidableEq, Repr

/-- `frame::PostV0_2`. -/
structure PostV0_2 where
  state_age : Nat
  v2_0 : Option PostV2_0
deriving DecidableEq, Repr

/-- `frame::Post` with exactly the fields `frame_post` fills in. -/
structure Post where
  index : Int
  character : Internal
  state : State
  position : Position
  direction : Direction
  damage : Nat
  shield : Nat
  last_attack_landed : Option Nat
  combo_count : Nat
  last_hit_by : Nat
  stocks : Nat
  v0_2 : Option PostV0_2
deriving DecidableEq, Repr

/-- `fn frame_post_v2_1` (parse.rs 463-467). -/
def frame_post_v2_1 : M PostV2_1 := do
  let h ← readU8
  pure { hurtbox_state := h }

/-- `fn frame_post_v2_0` (parse.rs 469-490). -/
def frame_post_v2_0 : M PostV2_0 := do
  let fb ← readExact 5
  let misc_as ← readF32
  let ground ← readU16
  let jumps ← readU8
  let lc ← readU8
  let ab ← readU8
  let e ← isEmpty
  let v2_1 ← if e then pure none else do
    let v ← frame_post_v2_1
    pure (some v)
  pure { flags := flags fb, misc_as := misc_as, ground := ground, jumps := jumps,
         l_cancel := if lc = 0 then none else some lc, airborne := ab ≠ 0,
         v2_1 := v2_1 }

/-- `fn frame_post_v0_2` (parse.rs 492-501). -/
def frame_post_v0_2 : M PostV0_2 := do
  let sa ← readF32
  let e ← isEmpty
  let v2_0 ← if e then pure none else do
    let v ← frame_post_v2_0
    pure (some v)
  pure { state_age := sa, v2_0 := v2_0 }

/-- `fn frame_post` (parse.rs 503-556): decodes the record, then updates the
per-slot `CharState` (the panicking index inside `update_last_char_state` is
the `indexPanic` branch) and returns the updated array alongside the event. -/
def frame_post (last_char_states : List CharState) : M (FrameEvent Post × List CharState) := do
  let index ← readI32
  let portB ← readU8
  let folB ← readU8
  let id : FrameId := { index := index, port := portB, is_follower := folB ≠ 0 }
  let charB ← readU8
  let character : Internal := ⟨charB⟩
  let stateRaw ← readU16
  let state := State.ofWire stateRaw character
  let px ← readF32
  let py ← readF32
  let dirRaw ← readF32
  let dir ← liftE (direction dirRaw)
  let damage ← readF32
  let shield ← readF32
  let attack ← readU8
  let combo_count ← readU8
  let last_hit_by ← readU8
  let stocks ← readU8
  let e ← isEmpty
  let v0_2 ← if e then pure none else do
    let v ← frame_post_v0_2
    pure (some v)
  match update_last_char_state id character state last_char_states with
  | none => throwM .indexPanic
  | some last' =>
    pure ({ id := id,
            event := { index := index, character := character, state := state,
                       position := { x := px, y := py }, direction := dir,
                       damage := damage, shield := shield,
                       last_attack_landed := if attack = 0 then none else some attack,
                       combo_count := combo_count, last_hit_by := last_hit_by,
                       stocks := stocks, v0_2 := v0_2 } },
          last')

/-! ## UBJSON subset reader (ubjson.rs) -/

/-- `ubjson::Object`: the metadata value tree.  `HashMap<String, Object>`
is embedded as an association list with insert-replaces-at-key semantics. -/
inductive Object
| Int (i : Int)
| Map (m : List (String × Object))
| Str (s : String)
deriving Repr

/-- `HashMap::insert` for string-keyed object maps. -/
def insertObj (m : List (String × Object)) (k : String) (v : Object) :
    List (String × Object) :=
  match m with
  | [] => [(k, v)]
  | (k', v') :: rest => if k' = k then (k, v) :: rest else (k', v') :: insertObj rest k v

/-- Whether a byte is a UTF-8 continuation byte (`0x80..0xBF`). -/
def isCont (b : Nat) : Bool := 0x80 ≤ b && b ≤ 0xBF

/-- Strict UTF-8 decoding (the validation done by Rust's
`String::from_utf8`): rejects truncated sequences, overlong encodings,
surrogates and out-of-range code points. -/
def utf8Decode : List Nat → Option (List Char)
  | [] => some []
  | b :: rest =>
    if b < 0x80 then
      (utf8Decode rest).map (fun cs => Char.ofNat b :: cs)
    else if 0xC2 ≤ b ∧ b ≤ 0xDF then
      match rest with
      | c1 :: r =>
        if isCont c1 then
          (utf8Decode r).map (fun cs => Char.ofNat ((b - 0xC0) * 64 + (c1 - 0x80)) :: cs)
        else none
      | _ => none
    else if 0xE0 ≤ b ∧ b ≤ 0xEF then
      match rest with
      | c1 :: c2 :: r =>
        let lo1 := if b = 0xE0 then 0xA0 else 0x80
        let hi1 := if b = 0xED then 0x9F else 0xBF
        if (lo1 ≤ c1 && c1 ≤ hi1) && isCont c2 then
          (utf8Decode r).map (fun cs =>
            Char.ofNat ((b - 0xE0) * 4096 + (c1 - 0x80) * 64 + (c2 - 0x80)) :: cs)
        else none
      | _ => none
    else if 0xF0 ≤ b ∧ b ≤ 0xF4 then
      match rest with
      | c1 :: c2 :: c3 :: r =>
        let lo1 := if b = 0xF0 then 0x90 else 0x80
        let hi1 := if b = 0xF4 then 0x8F else 0xBF
        if ((lo1 ≤ c1 && c1 ≤ hi1) && isCont c2) && isCont c3 then
          (utf8Decode r).map (fun cs =>
            Char.ofNat ((b - 0xF0) * 262144 + (c1 - 0x80) * 4096 +
              (c2 - 0x80) * 64 + (c3 - 0x80)) :: cs)
        else none
      | _ => none
    else none

/-- `fn parse_utf8` (ubjson.rs 50-55): length byte, that many bytes,
validated as UTF-8 (`InvalidText` on failure). -/
def parse_utf8 : M String := do
  let length ← readU8
  let buf ← readExact length
  match utf8Decode buf with
  | some cs => pure (String.mk cs)
  | none => throwM .invalidText

/-- `fn parse_key` (ubjson.rs 75-81): `some` key, `none` at the closing
marker, `MalformedMetadata` on any other marker. -/
def parse_key : M (Option String) := do
  let m ← readU8
  if m = 0x55 then do
    let k ← parse_utf8
    pure (some k)
  else if m = 0x7d then pure none
  else throwM .malformedMetadata

mutual

/-- `fn parse_val` (ubjson.rs 57-73), fuel-indexed: the Rust recursion
terminates because every recursive call is preceded by at least one byte
read; fuel one greater than the stream length can therefore never run out
(the fuel-zero arm is unreachable for the wrappers below). -/
def parse_valF : Nat → M Object
  | 0 => throwM .malformedMetadata
  | fuel + 1 => do
    let m ← readU8
    if m = 0x53 then do
      let m2 ← readU8
      if m2 = 0x55 then do
        let s ← parse_utf8
        pure (Object.Str s)
      else throwM .malformedMetadata
    else if m = 0x6c then do
      let n ← readI32
      pure (Object.Int n)
    else if m = 0x7b then do
      let inner ← parse_mapF fuel []
      pure (Object.Map inner)
    else throwM .unsupportedValueType

/-- `fn parse_map`'s key/value loop (ubjson.rs 83-90), fuel-indexed, with
the accumulated map threaded as the loop state. -/
def parse_mapF : Nat → List (String × Object) → M (List (String × Object))
  | 0, _ => throwM .malformedMetadata
  | fuel + 1, acc => do
    let k ← parse_key
    match k with
    | some k => do
      let v ← parse_valF fuel
      parse_mapF fuel (insertObj acc k v)
    | none => pure acc

end

/-- `fn parse_map` (ubjson.rs 83-90): the caller has consumed the opening
map marker; consumes key/value pairs up to and including the closing
marker.  Fuel is the unread-byte count plus one, which is always adequate. -/
def parse_map : M (List (String × Object)) := do
  let f ← remaining
  parse_mapF (f + 1) []

/-! ## Event stream loop and envelope (parse.rs 59-86, 558-635) -/

/-- `fn payload_sizes`'s entry-reading loop: `n` triples of one event-code
byte and a big-endian `u16` payload size, inserted in order. -/
def readTriples : Nat → Table → M Table
  | 0, acc => pure acc
  | n + 1, acc => do
    let k ← readU8
    let v ← readU16
    readTriples n (insertKV acc k v)

/-- `fn payload_sizes` (parse.rs 65-86): code byte must be the payloads
code, size byte `S` must satisfy `S % 3 == 1` (the size includes itself),
then `(S-1)/3` triples; returns `(1 + S, table)`. -/
def payload_sizes : M (Nat × Table) := do
  let code ← readU8
  if code = PAYLOADS_EVENT_CODE then do
    let size ← readU8
    if size % 3 = 1 then do
      let sizes ← readTriples ((size - 1) / 3) []
      pure (1 + size, sizes)
    else throwM .malformedEnvelope
  else throwM .malformedEnvelope

/-- `fn expect_bytes` (parse.rs 566-574): read exactly `expected.len()`
bytes, then compare; mismatch is `MalformedEnvelope`. -/
def expect_bytes (expected : Bytes) : M Unit := do
  let actual ← readExact expected.length
  if expected = actual then pure () else throwM .malformedEnvelope

/-- One sink callback, recorded in delivery order (the `Handlers` trait's
methods, modelled as an inert sink that never fails). -/
inductive SinkCall
| gameStart (s : Start)
| gameEnd (e : End)
| framePre (f : FrameEvent Pre)
| framePost (f : FrameEvent Post)
| metadata (m : List (String × Object))
deriving Repr

/-- `fn event` (parse.rs 580-600): one code byte, size lookup
(`UnknownEventSize` if absent), exactly `size` payload bytes, dispatch on
the known codes (unknown-but-sized codes are skipped with no callback);
returns bytes read, the recognized event kind, the updated `CharState`
array, and the callbacks delivered. -/
def event (sizes : Table) (last : List CharState) :
    M (Nat × Option Event × List CharState × List SinkCall) := do
  let code ← readU8
  match lookupKV sizes code with
  | none => throwM .unknownEventSize
  | some size => do
    let buf ← readExact size
    match Event.ofCode code with
    | some Event.GameStart => do
      let s ← liftE (runBuf game_start buf)
      pure (1 + size, some Event.GameStart, last, [SinkCall.gameStart s])
    | some Event.FramePre => do
      let f ← liftE (runBuf (frame_pre last) buf)
      pure (1 + size, some Event.FramePre, last, [SinkCall.framePre f])
    | some Event.FramePost => do
      let fl ← liftE (runBuf (frame_post last) buf)
      pure (1 + size, some Event.FramePost, fl.2, [SinkCall.framePost fl.1])
    | some Event.GameEnd => do
      let e ← liftE (runBuf game_end buf)
      pure (1 + size, some Event.GameEnd, last, [SinkCall.gameEnd e])
    | none => pure (1 + size, none, last, [])

/-- The `while` loop of `parse` (parse.rs 616-620), fuel-indexed: continue
while `(raw_len == 0 || bytes_read < raw_len) && last_event != GameEnd`.
Each successful `event` consumes at least the code byte, so fuel one greater
than the stream length can never be exhausted before the loop exits. -/
def eventLoop (sizes : Table) (raw_len : Nat) :
    Nat → Nat → Option Event → List CharState → List SinkCall →
    M (Nat × Option Event × List CharState × List SinkCall)
  | 0, bytes_read, last_event, st, calls => fun s =>
    (.ok (bytes_read, last_event, st, calls), s)
  | fuel + 1, bytes_read, last_event, st, calls => fun s =>
    if (raw_len = 0 ∨ bytes_read < raw_len) ∧ last_event ≠ some Event.GameEnd then
      match event sizes st s with
      | (.ok (n, ev, st', calls'), s') =>
        eventLoop sizes raw_len fuel (bytes_read + n) ev st' (calls ++ calls') s'
      | (.error e, s') => (.error e, s')
    else (.ok (bytes_read, last_event, st, calls), s)

/-- The loop followed directly by the byte-accounting check of `parse`
(parse.rs 616-624): if the declared raw length is nonzero and the bytes
actually consumed differ from it, fail with `ByteAccountingMismatch`. -/
def loopAndCheck (sizes : Table) (raw_len fuel bytes_read : Nat)
    (last_event : Option Event) (st : List CharState) (calls : List SinkCall) :
    M (Nat × Option Event × List CharState × List SinkCall) := fun s =>
  match eventLoop sizes raw_len fuel bytes_read last_event st calls s with
  | (.ok (br, le, st', calls'), s') =>
    if raw_len ≠ 0 ∧ br ≠ raw_len then (.error .byteAccountingMismatch, s')
    else (.ok (br, le, st', calls'), s')
  | (.error e, s') => (.error e, s')

/-- The fixed 11-byte container prologue (`{U\x03raw[$U#l`). -/
def RAW_HEADER : Bytes :=
  [0x7b, 0x55, 0x03, 0x72, 0x61, 0x77, 0x5b, 0x24, 0x55, 0x23, 0x6c]

/-- The fixed 11-byte metadata introducer (`U\x08metadata{`). -/
def META_HEADER : Bytes :=
  [0x55, 0x08, 0x6d, 0x65, 0x74, 0x61, 0x64, 0x61, 0x74, 0x61, 0x7b]

/-- `fn parse` (parse.rs 603-635): prologue, declared raw length, payload
size table, event loop with byte accounting, metadata introducer, metadata
map, closing brace.  Returns the sink callbacks in delivery order. -/
def parse : M (List SinkCall) := do
  expect_bytes RAW_HEADER
  let raw_len ← readU32
  let bs ← payload_sizes
  let fuel ← remaining
  let r ← loopAndCheck bs.2 raw_len (fuel + 1) bs.1 none
    (List.replicate NUM_PORTS DEFAULT_CHAR_STATE) []
  expect_bytes META_HEADER
  let md ← parse_map
  let calls := r.2.2.2 ++ [SinkCall.metadata md]
  expect_bytes [0x7d]
  pure calls

/-! ## Spec-side definitions (phrased from the specification's words, for
comparison against the source-derived definitions above) -/

/-- Spec wording (§4.4): the newly observed state is one of the two
transform-variant states of a character in the pair and the previous state
is the *other* transform variant of the *same* character; yields that
character's threshold. -/
def crossThreshold (prevState st : State) : Option Nat :=
  if st = State.Zelda Zelda.TRANSFORM_GROUND ∧ prevState = State.Zelda Zelda.TRANSFORM_AIR then
    some ZELDA_TRANSFORM_FRAME
  else if st = State.Zelda Zelda.TRANSFORM_AIR ∧ prevState = State.Zelda Zelda.TRANSFORM_GROUND then
    some ZELDA_TRANSFORM_FRAME
  else if st = State.Sheik Sheik.TRANSFORM_GROUND ∧ prevState = State.Sheik Sheik.TRANSFORM_AIR then
    some SHEIK_TRANSFORM_FRAME
  else if st = State.Sheik Sheik.TRANSFORM_AIR ∧ prevState = State.Sheik Sheik.TRANSFORM_GROUND then
    some SHEIK_TRANSFORM_FRAME
  else none

/-- The age-update rule exactly as claim C3 states it: increment when the
newly observed *(character, state) pair* equals the stored pair, cap at
threshold minus one on a transform cross, otherwise zero. -/
def specC3ClaimAge (prev : CharState) (c : Internal) (st : State) : Nat :=
  if c = prev.character ∧ st = prev.state then prev.age + 1
  else
    match crossThreshold prev.state st with
    | some thr => min (prev.age + 1) (thr - 1)
    | none => 0

/-- The age-update rule as amended: the code compares only the state (the
reported character is not consulted); otherwise as the claim states. -/
def specC3AmendedAge (prev : CharState) (st : State) : Nat :=
  if st = prev.state then prev.age + 1
  else
    match crossThreshold prev.state st with
    | some thr => min (prev.age + 1) (thr - 1)
    | none => 0

/-- The source's age computation coincides with the amended spec rule. -/
theorem newAge_eq_specC3AmendedAge (prev : CharState) (st : State) :
    newAge prev st = specC3AmendedAge prev st := by
  unfold newAge specC3AmendedAge crossThreshold
  split_ifs <;> simp_all <;> omega

/-- Unfolding equation for `update_last_char_state` when the port is in
bounds. -/
theorem update_last_char_state_some (id : FrameId) (c : Internal) (st : State)
    (last : List CharState) (prev : CharState)
    (hprev : last[id.port]? = some prev) :
    update_last_char_state id c st last =
      some (last.set id.port { character := c, state := st, age := newAge prev st }) := by
  unfold update_last_char_state
  rw [hprev]

/-! ## Claim theorems -/

/-- C2: if a slot's previously confirmed `CharState` is the ground-transform
state of character A (Zelda or Sheik) with age exactly one below A's
threshold (43 for Zelda, 36 for Sheik), then the next pre-event's character
prediction for that slot is A itself (not the alternate), and after the
matching post-event reports the same ground-transform state again, the
slot's stored age is exactly the threshold. -/
theorem C2_transform_prediction (id : FrameId) (last : List CharState) (c A : Internal)
    (tg : State) (thr : Nat)
    (hA : (A = Internal.ZELDA ∧ tg = State.Zelda Zelda.TRANSFORM_GROUND ∧
            thr = ZELDA_TRANSFORM_FRAME) ∨
          (A = Internal.SHEIK ∧ tg = State.Sheik Sheik.TRANSFORM_GROUND ∧
            thr = SHEIK_TRANSFORM_FRAME))
    (hprev : last[id.port]? = some ⟨A, tg, thr - 1⟩) :
    predict_character id last = some A ∧
    update_last_char_state id c tg last = some (last.set id.port ⟨c, tg, thr⟩) := by
  rcases hA with ⟨hA, htg, hthr⟩ | ⟨hA, htg, hthr⟩ <;> subst hA htg hthr <;>
    refine ⟨?_, ?_⟩
  · unfold predict_character
    rw [hprev]
    decide
  · rw [update_last_char_state_some id c _ last _ hprev,
      show newAge ⟨Internal.ZELDA, State.Zelda Zelda.TRANSFORM_GROUND,
        ZELDA_TRANSFORM_FRAME - 1⟩ (State.Zelda Zelda.TRANSFORM_GROUND) =
        ZELDA_TRANSFORM_FRAME from by decide]
  · unfold predict_character
    rw [hprev]
    decide
  · rw [update_last_char_state_some id c _ last _ hprev,
      show newAge ⟨Internal.SHEIK, State.Sheik Sheik.TRANSFORM_GROUND,
        SHEIK_TRANSFORM_FRAME - 1⟩ (State.Sheik Sheik.TRANSFORM_GROUND) =
        SHEIK_TRANSFORM_FRAME from by decide]

/-- Witness for C2 at a concrete slot: Zelda in `TRANSFORM_GROUND` at age 42
on port 0. -/
theorem C2_transform_prediction_witness :
    predict_character ⟨-123, 0, false⟩
        [⟨Internal.ZELDA, State.Zelda Zelda.TRANSFORM_GROUND, 42⟩,
         DEFAULT_CHAR_STATE, DEFAULT_CHAR_STATE, DEFAULT_CHAR_STATE] =
      some Internal.ZELDA ∧
    update_last_char_state ⟨-123, 0, false⟩ Internal.ZELDA
        (State.Zelda Zelda.TRANSFORM_GROUND)
        [⟨Internal.ZELDA, State.Zelda Zelda.TRANSFORM_GROUND, 42⟩,
         DEFAULT_CHAR_STATE, DEFAULT_CHAR_STATE, DEFAULT_CHAR_STATE] =
      some ([⟨Internal.ZELDA, State.Zelda Zelda.TRANSFORM_GROUND, 42⟩,
         DEFAULT_CHAR_STATE, DEFAULT_CHAR_STATE, DEFAULT_CHAR_STATE].set 0
        ⟨Internal.ZELDA, State.Zelda Zelda.TRANSFORM_GROUND, 43⟩) :=
  C2_transform_prediction ⟨-123, 0, false⟩ _ Internal.ZELDA Internal.ZELDA
    (State.Zelda Zelda.TRANSFORM_GROUND) 43
    (Or.inl ⟨rfl, rfl, rfl⟩) (by decide)

/-- C3 counterexample: the code compares only the state, not the
(character, state) pair.  With a stored pair (character 0, `WAIT`, age 5)
and a post-event reporting character 1 in the same `WAIT` state, the code
stores age 6, while the claim's rule (pair differs, no transform cross)
demands age 0. -/
theorem C3_age_update_counterexample :
    update_last_char_state ⟨0, 0, false⟩ ⟨1⟩ (State.Common Common.WAIT)
        [⟨⟨0⟩, State.Common Common.WAIT, 5⟩,
         DEFAULT_CHAR_STATE, DEFAULT_CHAR_STATE, DEFAULT_CHAR_STATE] =
      some [⟨⟨1⟩, State.Common Common.WAIT, 6⟩,
         DEFAULT_CHAR_STATE, DEFAULT_CHAR_STATE, DEFAULT_CHAR_STATE] ∧
    specC3ClaimAge ⟨⟨0⟩, State.Common Common.WAIT, 5⟩ ⟨1⟩ (State.Common Common.WAIT) = 0 ∧
    (6 : Nat) ≠ 0 := by
  refine ⟨by decide, by decide, by decide⟩

/-- C3 as amended: for every post-event update of a slot's `CharState`, the
stored age is the previous age plus one when the newly observed *state*
equals the stored state (the reported character is not compared); the
minimum of (previous age plus one) and (threshold minus one) on a
ground/air transform cross of the same character; and zero otherwise —
i.e. the stored entry is exactly `⟨c, st, specC3AmendedAge prev st⟩`. -/
theorem C3_age_update (id : FrameId) (c : Internal) (st : State)
    (last : List CharState) (prev : CharState)
    (hprev : last[id.port]? = some prev) :
    update_last_char_state id c st last =
      some (last.set id.port ⟨c, st, specC3AmendedAge prev st⟩) := by
  rw [update_last_char_state_some id c st last prev hprev, newAge_eq_specC3AmendedAge]

/-- Witness for C3 (amended) at a concrete input: a transform cross from
`TRANSFORM_AIR` to `TRANSFORM_GROUND` for Zelda at age 42 stays capped at
42 (= 43 - 1). -/
theorem C3_age_update_witness :
    update_last_char_state ⟨0, 1, true⟩ Internal.ZELDA
        (State.Zelda Zelda.TRANSFORM_GROUND)
        [DEFAULT_CHAR_STATE,
         ⟨Internal.ZELDA, State.Zelda Zelda.TRANSFORM_AIR, 42⟩,
         DEFAULT_CHAR_STATE, DEFAULT_CHAR_STATE] =
      some ([DEFAULT_CHAR_STATE,
         ⟨Internal.ZELDA, State.Zelda Zelda.TRANSFORM_AIR, 42⟩,
         DEFAULT_CHAR_STATE, DEFAULT_CHAR_STATE].set 1
        ⟨Internal.ZELDA, State.Zelda Zelda.TRANSFORM_GROUND,
          specC3AmendedAge ⟨Internal.ZELDA, State.Zelda Zelda.TRANSFORM_AIR, 42⟩
            (State.Zelda Zelda.TRANSFORM_GROUND)⟩) :=
  C3_age_update ⟨0, 1, true⟩ Internal.ZELDA (State.Zelda Zelda.TRANSFORM_GROUND)
    _ _ (by decide)

/-- C4: frame-event decoding indexes the NUM_PORTS-entry `CharState` array
with the wire port byte and has no error path for it: for every length-4
array and every port of 4 or more the guarded index yields `none` (in both
`predict_character` and `update_last_char_state`), and that branch is
reachable from the wire — concrete frame-pre and frame-post payloads whose
port byte is 4 make the decoders hit it (embedded as the `indexPanic`
outcome, a panic in the Rust source). -/
theorem C4_port_out_of_bounds :
    (∀ (last : List CharState) (id : FrameId), last.length = NUM_PORTS →
      NUM_PORTS ≤ id.port →
      predict_character id last = none ∧
      ∀ (c : Internal) (st : State), update_last_char_state id c st last = none) ∧
    (frame_pre (List.replicate NUM_PORTS DEFAULT_CHAR_STATE)
        [0, 0, 0, 0, 4, 0]).1 = .error .indexPanic ∧
    (frame_post (List.replicate NUM_PORTS DEFAULT_CHAR_STATE)
        (List.replicate 4 0 ++ [4, 0, 0, 0, 0] ++ List.replicate 8 0 ++
          [0x3F, 0x80, 0, 0] ++ List.replicate 12 0)).1 = .error .indexPanic := by
  refine ⟨fun last id hlen hport => ?_, rfl, rfl⟩
  have hnone : last[id.port]? = none := List.getElem?_eq_none (by omega)
  exact ⟨by unfold predict_character; rw [hnone],
         fun c st => by unfold update_last_char_state; rw [hnone]⟩

/-- Witness for C4's universally quantified part at a concrete array and
port 4. -/
theorem C4_port_out_of_bounds_witness :
    predict_character ⟨0, 4, false⟩ (List.replicate 4 DEFAULT_CHAR_STATE) = none ∧
    update_last_char_state ⟨0, 4, false⟩ ⟨0⟩ (State.Common 0)
      (List.replicate 4 DEFAULT_CHAR_STATE) = none := by
  have h := C4_port_out_of_bounds.1 (List.replicate 4 DEFAULT_CHAR_STATE)
    ⟨0, 4, false⟩ (by decide) (by decide)
  exact ⟨h.1, h.2 ⟨0⟩ (State.Common 0)⟩

/-- The spec's "input exactly 0.0" on a raw IEEE-754 single pattern: zero
exponent and zero mantissa (either sign of zero). -/
def f32IsZero (bits : Nat) : Prop :=
  bits / 2 ^ 23 % 2 ^ 8 = 0 ∧ bits % 2 ^ 23 = 0

instance (bits : Nat) : Decidable (f32IsZero bits) := by
  unfold f32IsZero; infer_instance

/-- C7: the direction decoder yields LEFT on every strictly negative input,
RIGHT on every strictly positive input, fails with `InvalidDiscriminant` on
exactly-zero input, and never succeeds on any other input (NaN included). -/
theorem C7_direction (bits : Nat) :
    (f32IsNeg bits → direction bits = .ok .LEFT) ∧
    (f32IsPos bits → direction bits = .ok .RIGHT) ∧
    (f32IsZero bits → direction bits = .error .invalidDiscriminant) ∧
    (∀ d, direction bits = .ok d → f32IsNeg bits ∨ f32IsPos bits) := by
  refine ⟨fun hn => by simp [direction, hn], fun hp => ?_, fun hz => ?_, fun d hd => ?_⟩
  · have hn : ¬ f32IsNeg bits := fun hn => by
      have h1 := hn.1
      have h2 := hp.1
      omega
    simp [direction, hn, hp]
  · have hn : ¬ f32IsNeg bits := fun hn => hn.2.1 hz
    have hp : ¬ f32IsPos bits := fun hp => hp.2.1 hz
    simp [direction, hn, hp]
  · by_cases hn : f32IsNeg bits
    · exact Or.inl hn
    by_cases hp : f32IsPos bits
    · exact Or.inr hp
    · simp [direction, hn, hp] at hd

/-- Witness for C7 at the patterns of -1.0, +1.0, +0.0, -0.0 and a NaN. -/
theorem C7_direction_witness :
    direction 0xBF800000 = .ok .LEFT ∧
    direction 0x3F800000 = .ok .RIGHT ∧
    direction 0x00000000 = .error .invalidDiscriminant ∧
    direction 0x80000000 = .error .invalidDiscriminant ∧
    (∀ d, direction 0x7FC00000 = .ok d → f32IsNeg 0x7FC00000 ∨ f32IsPos 0x7FC00000) :=
  ⟨(C7_direction 0xBF800000).1 (by decide),
   (C7_direction 0x3F800000).2.1 (by decide),
   (C7_direction 0x00000000).2.2.1 (by decide),
   (C7_direction 0x80000000).2.2.1 (by decide),
   (C7_direction 0x7FC00000).2.2.2⟩

/-- C10: the character-prediction state is keyed by the port alone — any two
frame ids with equal ports (whatever their frame index or `is_follower`
flag) consult and overwrite the same `CharState` entry, so a follower's
post-event replaces the state used for its leader's next pre-event. -/
theorem C10_keyed_by_port_only (id₁ id₂ : FrameId) (h : id₁.port = id₂.port)
    (c : Internal) (st : State) (last : List CharState) :
    predict_character id₁ last = predict_character id₂ last ∧
    update_last_char_state id₁ c st last = update_last_char_state id₂ c st last := by
  unfold predict_character update_last_char_state
  rw [h]
  exact ⟨rfl, rfl⟩

/-- Witness for C10: a leader and a follower event on port 1 (with different
frame indices as well) hit the same entry. -/
theorem C10_keyed_by_port_only_witness :
    predict_character ⟨0, 1, false⟩ (List.replicate 4 DEFAULT_CHAR_STATE) =
      predict_character ⟨7, 1, true⟩ (List.replicate 4 DEFAULT_CHAR_STATE) ∧
    update_last_char_state ⟨0, 1, false⟩ Internal.SHEIK (State.Sheik 0)
        (List.replicate 4 DEFAULT_CHAR_STATE) =
      update_last_char_state ⟨7, 1, true⟩ Internal.SHEIK (State.Sheik 0)
        (List.replicate 4 DEFAULT_CHAR_STATE) :=
  C10_keyed_by_port_only ⟨0, 1, false⟩ ⟨7, 1, true⟩ rfl Internal.SHEIK
    (State.Sheik 0) (List.replicate 4 DEFAULT_CHAR_STATE)

/-- `pure` in the reader monad, applied. -/
theorem M_pure_apply (a : α) (s : Bytes) : (pure a : M α) s = (.ok a, s) := rfl

/-- `bind` in the reader monad, applied. -/
theorem M_bind_apply (x : M α) (f : α → M β) (s : Bytes) :
    (x >>= f) s =
      match x s with
      | (.ok a, s') => f a s'
      | (.error e, s') => (.error e, s') := rfl

/-- C9: the UBJSON subset reader decodes the encoding of
`{ "x": { "y": 5 } }` (length-prefixed keys, nested map marker, signed
32-bit integer marker) to a map with exactly the key "x" mapped to a map
with exactly the key "y" mapped to the integer 5 widened to 64 bits,
consuming the whole encoding. -/
theorem C9_metadata_nested_map :
    parse_map [0x55, 1, 0x78, 0x7b, 0x55, 1, 0x79, 0x6c, 0, 0, 0, 5, 0x7d, 0x7d] =
      (.ok [("x", Object.Map [("y", Object.Int 5)])], []) := rfl

/-- The payload-size table as the spec's words build it (§6): `(S-1)/3`
triples of one event-code byte and a 2-byte big-endian payload size,
inserted in stream order. -/
def specTableOfTriples : Nat → Bytes → Table → Table
  | 0, _, acc => acc
  | n + 1, k :: hi :: lo :: rest, acc =>
    specTableOfTriples n rest (insertKV acc k (hi * 2 ^ 8 + lo))
  | _ + 1, _, acc => acc

/-- `readTriples` on a long-enough stream returns the spec-built table and
consumes exactly `3 * n` bytes. -/
theorem readTriples_ok (n : Nat) : ∀ (acc : Table) (s : Bytes), 3 * n ≤ s.length →
    readTriples n acc s = (.ok (specTableOfTriples n s acc), s.drop (3 * n)) := by
  induction n with
  | zero => intro acc s h; rfl
  | succ n ih =>
    intro acc s h
    match s with
    | [] => simp at h
    | [k] => simp at h; omega
    | [k, hi] => simp at h; omega
    | k :: hi :: lo :: rest =>
      have hlen : 3 * n ≤ rest.length := by simp at h; omega
      have h3 : 3 * (n + 1) = 3 * n + 1 + 1 + 1 := by ring
      simp only [readTriples, readU16, M_bind_apply, readU8, M_pure_apply,
        specTableOfTriples, h3, List.drop_succ_cons]
      exact ih (insertKV acc k (hi * 2 ^ 8 + lo)) rest hlen

/-- `readTriples` can only fail with `TruncatedInput`. -/
theorem readTriples_err (n : Nat) : ∀ (acc : Table) (s : Bytes) (e : Err),
    (readTriples n acc s).1 = .error e → e = .truncatedInput := by
  induction n with
  | zero => intro acc s e h; simp [readTriples, M_pure_apply] at h
  | succ n ih =>
    intro acc s e h
    match s with
    | [] => simp [readTriples, readU16, M_bind_apply, readU8] at h; simp_all
    | [k] => simp [readTriples, readU16, M_bind_apply, readU8, M_pure_apply] at h; simp_all
    | [k, hi] => simp [readTriples, readU16, M_bind_apply, readU8, M_pure_apply] at h; simp_all
    | k :: hi :: lo :: rest =>
      simp only [readTriples, readU16, M_bind_apply, readU8, M_pure_apply] at h
      exact ih _ rest e h

theorem payload_sizes_ok_form (sz : Nat) (t2 : Bytes) (hs : sz % 3 = 1) :
    payload_sizes (PAYLOADS_EVENT_CODE :: sz :: t2) =
      ((do
        let sizes ← readTriples ((sz - 1) / 3) []
        pure ((1 + sz : Nat), sizes) : M (Nat × Table))) t2 := by
  simp only [payload_sizes, M_bind_apply, readU8, if_true, eq_self_iff_true]
  rw [if_pos hs]
  rfl

theorem payload_sizes_badcode (b : Nat) (tail : Bytes) (hb : b ≠ PAYLOADS_EVENT_CODE) :
    payload_sizes (b :: tail) = (.error .malformedEnvelope, tail) := by
  simp only [payload_sizes, M_bind_apply, readU8]
  rw [if_neg hb]
  rfl

theorem payload_sizes_badsize (sz : Nat) (t2 : Bytes) (hs : ¬ sz % 3 = 1) :
    payload_sizes (PAYLOADS_EVENT_CODE :: sz :: t2) = (.error .malformedEnvelope, t2) := by
  simp only [payload_sizes, M_bind_apply, readU8, if_true, eq_self_iff_true]
  rw [if_neg hs]
  rfl
/-- C6: reading the payload-size table fails with `MalformedEnvelope` if and
only if the first byte is not the fixed table code 0x35 or the size byte S
fails `(S - 1) mod 3 = 0` (a shortage of bytes fails with `TruncatedInput`
instead, never `MalformedEnvelope`); on success over a long-enough stream it
consumes exactly `1 + S` bytes and returns `1 + S` paired with the mapping
built from the `(S-1)/3` triples of (event-code byte, 2-byte big-endian
payload size). -/
theorem C6_payload_table :
    (∀ input : Bytes,
      (payload_sizes input).1 = .error .malformedEnvelope ↔
        ∃ b tail, input = b :: tail ∧
          (b ≠ PAYLOADS_EVENT_CODE ∨
            ∃ sz t2, tail = sz :: t2 ∧ ¬ ((sz : Int) - 1) % 3 = 0)) ∧
    (∀ (sz : Nat) (body : Bytes), ((sz : Int) - 1) % 3 = 0 →
      sz - 1 ≤ body.length →
      payload_sizes (PAYLOADS_EVENT_CODE :: sz :: body) =
        (.ok (1 + sz, specTableOfTriples ((sz - 1) / 3) body []),
         (PAYLOADS_EVENT_CODE :: sz :: body).drop (1 + sz))) := by
  constructor
  · intro input
    match input with
    | [] =>
      constructor
      · intro h; simp [payload_sizes, M_bind_apply, readU8] at h
      · rintro ⟨b, tail, heq, _⟩; exact absurd heq (by simp)
    | b :: tail =>
      by_cases hb : b = PAYLOADS_EVENT_CODE
      · subst hb
        match tail with
        | [] =>
          constructor
          · intro h; simp [payload_sizes, M_bind_apply, readU8] at h
          · rintro ⟨b', tail', heq, hcase⟩
            injection heq with h1 h2
            subst h1; subst h2
            rcases hcase with h | ⟨sz, t2, heq2, _⟩
            · exact absurd rfl h
            · exact absurd heq2 (by simp)
        | sz :: t2 =>
          by_cases hs : sz % 3 = 1
          · rw [payload_sizes_ok_form sz t2 hs]
            constructor
            · intro h
              exfalso
              rw [M_bind_apply] at h
              rcases hm : readTriples ((sz - 1) / 3) [] t2 with ⟨r, s'⟩
              rw [hm] at h
              rcases r with v | a
              · simp at h
                have he := readTriples_err ((sz - 1) / 3) [] t2 v (by rw [hm])
                subst he
                simp at h
              · simp [M_pure_apply] at h
            · rintro ⟨b', tail', heq, hcase⟩
              injection heq with h1 h2
              subst h1; subst h2
              rcases hcase with h | ⟨sz', t2', heq2, hmod⟩
              · exact absurd rfl h
              · injection heq2 with h3 h4
                subst h3
                exact absurd (by omega) hmod
          · rw [payload_sizes_badsize sz t2 hs]
            constructor
            · intro _
              exact ⟨PAYLOADS_EVENT_CODE, sz :: t2, rfl, Or.inr ⟨sz, t2, rfl, by omega⟩⟩
            · intro _; rfl
      · rw [payload_sizes_badcode b tail hb]
        constructor
        · intro _; exact ⟨b, tail, rfl, Or.inl hb⟩
        · intro _; rfl
  · intro sz body hmod hlen
    have hs : sz % 3 = 1 := by omega
    have hdiv : 3 * ((sz - 1) / 3) = sz - 1 := by omega
    rw [payload_sizes_ok_form sz body hs, M_bind_apply,
      readTriples_ok ((sz - 1) / 3) [] body (by omega)]
    simp only [M_pure_apply, hdiv]
    have h1 : 1 + sz = sz - 1 + 1 + 1 := by omega
    rw [h1]
    simp [List.drop_succ_cons]
/-- Witness for C6: the malformed-iff at a wrong first byte and the success
case on the table `{0x37: 100, 0x38: 120}` (size byte 7). -/
theorem C6_payload_table_witness :
    ((payload_sizes [0x34, 7]).1 = .error .malformedEnvelope ↔
      ∃ b tail, ([0x34, 7] : Bytes) = b :: tail ∧
        (b ≠ PAYLOADS_EVENT_CODE ∨
          ∃ sz t2, tail = sz :: t2 ∧ ¬ ((sz : Int) - 1) % 3 = 0)) ∧
    payload_sizes (PAYLOADS_EVENT_CODE :: 7 :: [0x37, 0, 100, 0x38, 0, 120, 0xAA]) =
      (.ok (8, specTableOfTriples 2 [0x37, 0, 100, 0x38, 0, 120, 0xAA] []),
       (PAYLOADS_EVENT_CODE :: 7 :: [0x37, 0, 100, 0x38, 0, 120, 0xAA]).drop 8) :=
  ⟨C6_payload_table.1 [0x34, 7],
   C6_payload_table.2 7 [0x37, 0, 100, 0x38, 0, 120, 0xAA] (by decide) (by decide)⟩

/-- The `CharState` array as initialized by `parse`. -/
def initStates : List CharState := List.replicate NUM_PORTS DEFAULT_CHAR_STATE

/-- A 100-byte frame-pre payload: port 0, all fields zero except a positive
direction float (bits of 1.0) at payload offset 20. -/
def preBuf100 : Bytes := List.replicate 20 0 ++ [0x3F, 0x80, 0, 0] ++ List.replicate 76 0

/-- The frame-pre event decoded from `preBuf100`. -/
def preEvent100 : FrameEvent Pre :=
  { id := { index := 0, port := 0, is_follower := false },
    event := { index := 0, random_seed := 0, state := State.Common 0,
               position := { x := 0, y := 0 }, direction := Direction.RIGHT,
               joystick := { x := 0, y := 0 }, cstick := { x := 0, y := 0 },
               triggers := { logical := 0, physical := { l := 0, r := 0 } },
               buttons := { logical := 0, physical := 0 },
               v1_2 := some { raw_analog_x := 0, v1_4 := some { damage := 0 } } } }

/-- C5: for every single-event read, an event code absent from the payload
size table fails with `UnknownEventSize` (no sink callback is delivered);
a code present with declared size S consumes exactly `1 + S` bytes whenever
the read succeeds (and leaves the stream at `tail.drop S` even when the
inner decode fails); concretely a 0x37 record of size 100 consumes 101
bytes delivering one frame-pre callback, and an unrecognized code 0x40 of
size 10 is skipped with no error and no callback, consuming 11 bytes. -/
theorem C5_event_sizing :
    (∀ (sizes : Table) (last : List CharState) (code : Nat) (tail : Bytes),
      lookupKV sizes code = none →
      event sizes last (code :: tail) = (.error .unknownEventSize, tail)) ∧
    (∀ (sizes : Table) (last : List CharState) (code : Nat) (tail : Bytes) (S : Nat),
      lookupKV sizes code = some S → S ≤ tail.length →
      ∃ r, event sizes last (code :: tail) = (r, tail.drop S) ∧
        ∀ n ev st cs, r = .ok (n, ev, st, cs) → n = 1 + S) ∧
    event [(0x37, 100), (0x38, 120)] initStates (0x37 :: preBuf100 ++ [0xEE]) =
      (.ok (101, some Event.FramePre, initStates, [SinkCall.framePre preEvent100]), [0xEE]) ∧
    event [(0x40, 10)] initStates (0x40 :: List.replicate 10 0 ++ [0xEE]) =
      (.ok (11, none, initStates, []), [0xEE]) := by
  refine ⟨?_, ?_, rfl, rfl⟩
  · intro sizes last code tail h
    simp only [event, M_bind_apply, readU8, h]
    rfl
  · intro sizes last code tail S h hlen
    simp only [event, M_bind_apply, readU8, h, readExact]
    rw [if_pos hlen]
    rcases hoc : Event.ofCode code with _ | ev
    · exact ⟨.ok (1 + S, none, last, []), rfl, fun n ev st cs hv => by
        injection hv with hv
        injection hv with h1 _
        omega⟩
    · cases ev
      · rcases hr : runBuf game_start (tail.take S) with e | v
        · refine ⟨.error e, ?_, fun n ev st cs hv => by simp at hv⟩
          simp [M_bind_apply, liftE, hr, M_pure_apply]
        · refine ⟨.ok (1 + S, some Event.GameStart, last, [SinkCall.gameStart v]), ?_,
            fun n ev st cs hv => by
              injection hv with hv
              injection hv with h1 _
              omega⟩
          simp [M_bind_apply, liftE, hr, M_pure_apply]
      · rcases hr : runBuf (frame_pre last) (tail.take S) with e | v
        · refine ⟨.error e, ?_, fun n ev st cs hv => by simp at hv⟩
          simp [M_bind_apply, liftE, hr, M_pure_apply]
        · refine ⟨.ok (1 + S, some Event.FramePre, last, [SinkCall.framePre v]), ?_,
            fun n ev st cs hv => by
              injection hv with hv
              injection hv with h1 _
              omega⟩
          simp [M_bind_apply, liftE, hr, M_pure_apply]
      · rcases hr : runBuf (frame_post last) (tail.take S) with e | v
        · refine ⟨.error e, ?_, fun n ev st cs hv => by simp at hv⟩
          simp [M_bind_apply, liftE, hr, M_pure_apply]
        · refine ⟨.ok (1 + S, some Event.FramePost, v.2, [SinkCall.framePost v.1]), ?_,
            fun n ev st cs hv => by
              injection hv with hv
              injection hv with h1 _
              omega⟩
          simp [M_bind_apply, liftE, hr, M_pure_apply]
      · rcases hr : runBuf game_end (tail.take S) with e | v
        · refine ⟨.error e, ?_, fun n ev st cs hv => by simp at hv⟩
          simp [M_bind_apply, liftE, hr, M_pure_apply]
        · refine ⟨.ok (1 + S, some Event.GameEnd, last, [SinkCall.gameEnd v]), ?_,
            fun n ev st cs hv => by
              injection hv with hv
              injection hv with h1 _
              omega⟩
          simp [M_bind_apply, liftE, hr, M_pure_apply]


/-- Witness for C5's quantified parts: an empty table rejects code 0, and a
table carrying code 0x40 at size 10 consumes exactly 11 bytes. -/
theorem C5_event_sizing_witness :
    event [] initStates [0] = (.error .unknownEventSize, []) ∧
    ∃ r, event [(0x40, 10)] initStates (0x40 :: List.replicate 10 0) =
        (r, (List.replicate 10 0 : Bytes).drop 10) ∧
      ∀ n ev st cs, r = .ok (n, ev, st, cs) → n = 1 + 10 :=
  ⟨C5_event_sizing.1 [] initStates 0 [] rfl,
   C5_event_sizing.2.1 [(0x40, 10)] initStates 0x40 (List.replicate 10 0) 10 rfl
     (by decide)⟩


/-- C1: the event loop stops immediately (consuming nothing further) as soon
as the running consumed-byte count reaches a nonzero declared raw length or
a GameEnd event has just been processed; and after a normally terminated
loop, the parse fails with `ByteAccountingMismatch` exactly when the
declared length is nonzero and the final consumed-byte count differs from
it (so a zero declared length skips the check). -/
theorem C1_byte_accounting (sizes : Table) (raw_len : Nat) :
    (∀ (fuel br : Nat) (le : Option Event) (st : List CharState)
        (cs : List SinkCall) (s : Bytes),
      (raw_len ≠ 0 ∧ raw_len ≤ br) ∨ le = some Event.GameEnd →
      eventLoop sizes raw_len fuel br le st cs s = (.ok (br, le, st, cs), s)) ∧
    (∀ (fuel br : Nat) (le : Option Event) (st : List CharState)
        (cs : List SinkCall) (s : Bytes) (br' : Nat) (le' : Option Event)
        (st' : List CharState) (cs' : List SinkCall) (s' : Bytes),
      eventLoop sizes raw_len fuel br le st cs s = (.ok (br', le', st', cs'), s') →
      (loopAndCheck sizes raw_len fuel br le st cs s =
          (.error .byteAccountingMismatch, s') ↔
        raw_len ≠ 0 ∧ br' ≠ raw_len)) := by
  constructor
  · intro fuel br le st cs s h
    have hcond : ¬((raw_len = 0 ∨ br < raw_len) ∧ le ≠ some Event.GameEnd) := by
      rcases h with ⟨h0, hle⟩ | hg
      · rintro ⟨hor, _⟩
        rcases hor with h1 | h2
        · exact h0 h1
        · omega
      · rintro ⟨_, hne⟩
        exact hne hg
    cases fuel with
    | zero => rfl
    | succ fuel =>
      simp only [eventLoop]
      rw [if_neg hcond]
  · intro fuel br le st cs s br' le' st' cs' s' hloop
    have hred : loopAndCheck sizes raw_len fuel br le st cs s =
        if raw_len ≠ 0 ∧ br' ≠ raw_len then (.error .byteAccountingMismatch, s')
        else (.ok (br', le', st', cs'), s') := by
      unfold loopAndCheck
      rw [hloop]
    rw [hred]
    by_cases hc : raw_len ≠ 0 ∧ br' ≠ raw_len
    · rw [if_pos hc]
      simp [hc]
    · rw [if_neg hc]
      simp [hc]

/-- Witness for C1 at concrete inputs: a loop already at its byte budget
(raw length 1, 1 byte consumed) stops at once, and the subsequent check
passes exactly because the counts agree. -/
theorem C1_byte_accounting_witness :
    eventLoop [] 1 5 1 none [] [] [] = (.ok (1, none, [], []), []) ∧
    (loopAndCheck [] 1 0 1 none [] [] [] = (.error .byteAccountingMismatch, []) ↔
      (1 : Nat) ≠ 0 ∧ (1 : Nat) ≠ 1) :=
  ⟨(C1_byte_accounting [] 1).1 5 1 none [] [] [] (Or.inl ⟨by decide, by decide⟩),
   (C1_byte_accounting [] 1).2 0 1 none [] [] [] 1 none [] [] [] rfl⟩

/-- `expect_bytes` on a long-enough but mismatching stream fails with
`MalformedEnvelope` after consuming the full expected length. -/
theorem expect_bytes_neq (expected s : Bytes)
    (hle : expected.length ≤ s.length) (hne : expected ≠ s.take expected.length) :
    expect_bytes expected s = (.error .malformedEnvelope, s.drop expected.length) := by
  simp only [expect_bytes, M_bind_apply, readExact]
  rw [if_pos hle]
  show (if expected = s.take expected.length then (pure () : M Unit)
    else throwM .malformedEnvelope) (s.drop expected.length) = _
  rw [if_neg hne]
  rfl

/-- C8 counterexample: the claim fails as stated.  On the 1-byte source
`[0]` (first byte differs from the prologue) the parse fails with
`TruncatedInput`, not `MalformedEnvelope`; and on a 12-byte source whose
first byte differs, the parse consumes all 11 prologue bytes — well past
the first mismatching byte — before failing. -/
theorem C8_prologue_counterexample :
    (parse [0]).1 = .error .truncatedInput ∧
    Err.truncatedInput ≠ Err.malformedEnvelope ∧
    parse (0 :: (List.replicate 10 7 ++ [0xEE])) =
      (.error .malformedEnvelope, [0xEE]) :=
  ⟨rfl, by decide, rfl⟩

/-- C8 as amended: for every source of at least 11 bytes whose first byte
differs from the prologue's first byte, the parse fails with
`MalformedEnvelope` having consumed exactly the 11 prologue bytes (it does
read past the first mismatching byte, up to the full prologue length; with
fewer than 11 bytes available the failure is `TruncatedInput` instead). -/
theorem C8_prologue_mismatch (b : Nat) (tail : Bytes)
    (hb : b ≠ 0x7b) (hlen : 10 ≤ tail.length) :
    parse (b :: tail) = (.error .malformedEnvelope, tail.drop 10) := by
  have hle : RAW_HEADER.length ≤ (b :: tail).length := by
    simp [RAW_HEADER]
    omega
  have hne : RAW_HEADER ≠ (b :: tail).take RAW_HEADER.length := by
    intro h
    have : (0x7b : Nat) = b := by
      have := congrArg (fun l => l.headD 0) h
      simpa [RAW_HEADER] using this
    exact hb this.symm
  simp only [parse, M_bind_apply]
  rw [expect_bytes_neq RAW_HEADER (b :: tail) hle hne]
  rfl

/-- Witness for C8 (amended) at the concrete 12-byte source. -/
theorem C8_prologue_mismatch_witness :
    parse (1 :: (List.replicate 10 7 ++ [0xEE])) =
      (.error .malformedEnvelope, ((List.replicate 10 7 ++ [0xEE]) : Bytes).drop 10) :=
  C8_prologue_mismatch 1 (List.replicate 10 7 ++ [0xEE]) (by decide) (by decide)

end Peppi